import Mathlib

/-!
Shallow embedding of `clp_package_utils/scripts/native/compress.py`: the
client-side coordinator that submits a compression job to a shared document
store, polls the job record until a terminal status, and cooperatively
cancels a still-pending job on keyboard interruption.

Numbers read from the store are modelled as `Int` (Python integers), real
arithmetic (ratios, runtimes, speeds) as `Rat` (Python performs these with
exact small operands in the claims' scope; `Rat` keeps the computations
decidable).  Python exceptions escaping the modelled code are made explicit
with `PyErr`.  Log output is modelled as a list of structured events carrying
the computed quantities; human-readable formatting (`pretty_size`, rounding
for display) is outside the lifecycle core per the spec's scope.
-/

namespace ClpCompress

/-- Modelled from the spec: the `JobStatus` enumeration lives in
`compression_job_handler.common`, which is not part of the visible source.
The spec defines exactly six states (§4.3): PENDING, RUNNING, CANCELLING,
CANCELLED, DONE, FAILED. -/
inductive JobStatus
  | PENDING
  | RUNNING
  | CANCELLING
  | CANCELLED
  | DONE
  | FAILED
deriving DecidableEq, Repr

/-- Modelled from the spec: `str(JobStatus.X)` — the string form stored in the
job record.  The submitter writes the literal `"pending"` into the new entry
and the cancellation filter `{"status": str(JobStatus.PENDING)}` must match
that entry (spec §8: cancelling a still-PENDING record succeeds), so the
string forms are the lowercase state names. -/
def JobStatus.toStr : JobStatus → String
  | .PENDING => "pending"
  | .RUNNING => "running"
  | .CANCELLING => "cancelling"
  | .CANCELLED => "cancelled"
  | .DONE => "done"
  | .FAILED => "failed"

/-- Modelled from the spec: `JobStatus.from_str` decodes a status string into
the enumeration and fails (the caller sees a `KeyError`) for any string
outside the six defined states (spec §4.2, §9). -/
def JobStatus.from_str (s : String) : Option JobStatus :=
  if s = "pending" then some .PENDING
  else if s = "running" then some .RUNNING
  else if s = "cancelling" then some .CANCELLING
  else if s = "cancelled" then some .CANCELLED
  else if s = "done" then some .DONE
  else if s = "failed" then some .FAILED
  else none

/-- Python exceptions that can escape the modelled code paths uncaught. -/
inductive PyErr
  | keyError (key : String)
  | zeroDivisionError
  | typeError
deriving DecidableEq, Repr

/-- Encoding of a timestamp field as stored: either a millisecond-epoch
number or a datetime (whose subtraction yields a `timedelta`).  The source's
DONE branch tolerates both (lines 210-215). -/
inductive TsVal
  | ms (n : Int)
  | dt (secondsSinceEpoch : Rat)
deriving DecidableEq, Repr

/-- Result of `doc["end_timestamp"] - doc["begin_timestamp"]` in Python:
a plain number for millisecond encodings, a `timedelta` for datetimes. -/
inductive RuntimeDelta
  | num (milliseconds : Int)
  | duration (seconds : Rat)
deriving DecidableEq, Repr

/-- Python subtraction of two timestamp values; mixing the encodings raises a
`TypeError` (modelled as `none`). -/
def tsSub : TsVal → TsVal → Option RuntimeDelta
  | .ms a, .ms b => some (.num (a - b))
  | .dt a, .dt b => some (.duration (a - b))
  | _, _ => none

/-- Source lines 211-215: `timedelta` values yield `total_seconds()`, plain
numbers are assumed to be milliseconds and divided by 1000. -/
def normalizeRuntime : RuntimeDelta → Rat
  | .num n => (n : Rat) / 1000
  | .duration s => s

/-- The projection of the job record the monitor fetches each iteration
(source lines 167-177): status, both timestamps, both size counters, and the
errors flag.  Timestamps are `Option` because the worker sets them only once
execution starts; accessing an absent one raises a `KeyError`. -/
structure JobDoc where
  status : String
  begin_timestamp : Option TsVal
  end_timestamp : Option TsVal
  logs_uncompressed_size : Int
  logs_compressed_size : Int
  errors : Bool
deriving DecidableEq, Repr

/-- Structured log output of the client, one constructor per logging call in
the source, carrying the computed quantities before display formatting. -/
inductive LogEvent
  | submitted
  | waitingForUpdates
  | progress (uncompressed compressed : Int) (ratioPercent : Rat)
  | jobDisappeared
  | unknownStatus (s : String)
  | compressionFailed
  | compressionCancelled
  | compressionFinished (runtimeSeconds speed : Rat)
  | errorsOccurred
  | tryingToCancel
  | alreadyStartedWillContinue
  | cancelledJobs
  | configValidationError
deriving DecidableEq, Repr

/-- Terminal condition of one pass of the normal monitoring loop. -/
inductive MonTerm
  | disappeared
  | unknown (s : String)
  | failed
  | cancelled
  | done (runtimeSeconds speed : Rat) (errors : Bool)
deriving DecidableEq, Repr

/-- Control outcome of a single monitoring iteration. -/
inductive Control
  | keepPolling (last : Int)
  | term (t : MonTerm)
  | raised (e : PyErr)
deriving DecidableEq, Repr

/-- Source lines 183-193: the progress-report block of one iteration.
Given the last-seen uncompressed size and the observed sizes, returns the
optional emitted report together with the updated last-seen size; `none`
models the `ZeroDivisionError` Python raises when the ratio divisor is 0. -/
def progressPhase (last u c : Int) : Option (Option LogEvent × Int) :=
  if last < u then
    if u = 0 then none
    else some (some (.progress u c ((c : Rat) / (u : Rat) * 100)), u)
  else some (none, last)

/-- Source lines 195-229: decode the status string and dispatch.  `last` is
the last-seen uncompressed size after the progress block (the value the DONE
branch divides by, line 217). -/
def statusPhase (last : Int) (doc : JobDoc) : List LogEvent × Control :=
  match JobStatus.from_str doc.status with
  | none => ([.unknownStatus doc.status], .term (.unknown doc.status))
  | some .FAILED => ([.compressionFailed], .term .failed)
  | some .CANCELLED => ([.compressionCancelled], .term .cancelled)
  | some .DONE =>
    match doc.end_timestamp with
    | none => ([], .raised (.keyError "end_timestamp"))
    | some e =>
      match doc.begin_timestamp with
      | none => ([], .raised (.keyError "begin_timestamp"))
      | some b =>
        match tsSub e b with
        | none => ([], .raised .typeError)
        | some delta =>
          if normalizeRuntime delta = 0 then ([], .raised .zeroDivisionError)
          else
            ((.compressionFinished (normalizeRuntime delta)
                  ((last : Rat) / normalizeRuntime delta)) ::
                (if doc.errors then [.errorsOccurred] else []),
              .term (.done (normalizeRuntime delta)
                ((last : Rat) / normalizeRuntime delta) doc.errors))
  | some _ => ([], .keepPolling last)

/-- One iteration of the normal monitoring loop (source lines 163-229):
disappearance check, progress block, then status dispatch. -/
def monitorStep (last : Int) (doc? : Option JobDoc) : List LogEvent × Control :=
  match doc? with
  | none => ([.jobDisappeared], .term .disappeared)
  | some doc =>
    match progressPhase last doc.logs_uncompressed_size doc.logs_compressed_size with
    | none => ([], .raised .zeroDivisionError)
    | some (ev?, last') =>
      let (evs, ctl) := statusPhase last' doc
      (ev?.toList ++ evs, ctl)

/-- Outcome of running the monitoring loop over a finite trace of polled
observations: still polling when the trace is exhausted, a terminal
condition, or an uncaught exception. -/
inductive MonOutcome
  | polling (last : Int)
  | term (t : MonTerm)
  | raised (e : PyErr)
deriving DecidableEq, Repr

/-- The monitoring loop folded over a trace of successive poll results
(`none` = record not found). -/
def monitorRun (last : Int) : List (Option JobDoc) → List LogEvent × MonOutcome
  | [] => ([], .polling last)
  | d :: rest =>
    match monitorStep last d with
    | (evs, .keepPolling last') =>
      let (evs', out) := monitorRun last' rest
      (evs ++ evs', out)
    | (evs, .term t) => (evs, .term t)
    | (evs, .raised e) => (evs, .raised e)

/-- How `main` ends: a returned integer, an uncaught Python exception, or
never (the loop is still waiting when the trace runs out). -/
inductive MainOutcome
  | ret (n : Int)
  | raised (e : PyErr)
  | neverExits
deriving DecidableEq, Repr

/-- The value `main` returns for each terminal monitor condition:
disappearance and unknown status `return -1` (lines 180, 201); FAILED,
CANCELLED and DONE `break` out of the loop and reach `return 0`
(line 257). -/
def termReturn : MonTerm → Int
  | .disappeared => -1
  | .unknown _ => -1
  | .failed => 0
  | .cancelled => 0
  | .done _ _ _ => 0

/-- Process exit status observed by the OS: `sys.exit(main(...))` exits with
the return value reduced modulo 256 (so `-1` becomes 255), and an uncaught
exception makes the interpreter exit with status 1. -/
def exitStatus : MainOutcome → Option Nat
  | .ret n => some (n % 256).toNat
  | .raised _ => some 1
  | .neverExits => none

/-- The whole normal path of `main` after a successful submission: the two
submission log lines, then the monitoring loop from `last_uncompressed_size
= 0` (line 162). -/
def monitorMain (trace : List (Option JobDoc)) : List LogEvent × MainOutcome :=
  let (evs, out) := monitorRun 0 trace
  (.submitted :: .waitingForUpdates :: evs,
    match out with
    | .polling _ => .neverExits
    | .term t => .ret (termReturn t)
    | .raised e => .raised e)

/-- Source lines 100-104: a configuration validation error is logged and
`main` returns -1 before any job is created. -/
def mainConfigFailure : List LogEvent × MainOutcome :=
  ([.configValidationError], .ret (-1))

/-- Source lines 234-237: the atomic conditional update
`find_one_and_update(filter={_id, status: str(PENDING)},
update={$set: {status: str(CANCELLING)}})` applied to the store's current
view of the job record.  Returns the new store state and the matched
document (`none` when the filter matched nothing). -/
def condCancelUpdate (store : Option JobDoc) : Option JobDoc × Option JobDoc :=
  match store with
  | none => (none, none)
  | some d =>
    if d.status = JobStatus.toStr .PENDING then
      (some { d with status := JobStatus.toStr .CANCELLING }, some d)
    else (some d, none)

/-- Source lines 244-255: the cancellation-wait loop entered after a
successful conditional update, folded over a trace of polled status fields
(the projection is `{status: 1}` only).  Note `JobStatus.from_str` is called
here without the try/except of the normal loop, so an unknown status raises
an uncaught `KeyError`. -/
def cancelWaitRun : List (Option String) → List LogEvent × MainOutcome
  | [] => ([], .neverExits)
  | none :: _ => ([.jobDisappeared], .ret (-1))
  | some s :: rest =>
    match JobStatus.from_str s with
    | none => ([], .raised (.keyError s))
    | some st =>
      if st = .CANCELLED ∨ st = .DONE then ([.cancelledJobs], .ret 0)
      else cancelWaitRun rest

/-- Source lines 230-257: the `KeyboardInterrupt` handler.  When `job_id` is
still `None` the conditional update is skipped entirely and `main` falls
through to `return 0`; otherwise the conditional update runs and, on a
match, the cancellation-wait loop is entered.  Returns the emitted events,
the store state after the handler, and how `main` ends. -/
def handleKeyboardInterrupt (job_id : Option Unit) (store : Option JobDoc)
    (waitTrace : List (Option String)) :
    List LogEvent × Option JobDoc × MainOutcome :=
  match job_id with
  | none => ([.tryingToCancel], store, .ret 0)
  | some _ =>
    match condCancelUpdate store with
    | (store', none) =>
      ([.tryingToCancel, .alreadyStartedWillContinue], store', .ret 0)
    | (store', some _) =>
      let (evs, out) := cancelWaitRun waitTrace
      (.tryingToCancel :: evs, store', out)

/-- The command-line arguments relevant to entry construction, after
argparse: optional tuning parameters are `none` when not supplied. -/
structure ParsedArgs where
  paths : List String
  input_list : Option String
  path_prefix_to_remove : Option String
  target_archive_size : Option Int
  target_archive_dictionaries_data_size : Option Int
  target_segment_size : Option Int
  target_encoded_file_size : Option Int
  target_num_archives : Option Int
deriving Repr

/-- Source lines 125-130: `output_config` holds exactly the tuning
parameters that were explicitly supplied; absent ones are omitted. -/
def buildOutputConfig (args : ParsedArgs) : List (String × Int) :=
  [("target_archive_size", args.target_archive_size),
   ("target_archive_dictionaries_data_size",
     args.target_archive_dictionaries_data_size),
   ("target_segment_size", args.target_segment_size),
   ("target_encoded_file_size", args.target_encoded_file_size),
   ("target_num_archives", args.target_num_archives)].filterMap
    (fun p => p.2.map (fun v => (p.1, v)))

/-- The database entry inserted at submission (source lines 132-144). -/
structure Entry where
  input_type : String
  input_config_paths : List String
  input_config_path_prefix_to_remove : Option String
  status : String
  submission_timestamp : Int
  logs_uncompressed_size : Int
  logs_compressed_size : Int
  errors : Bool
  output_config : List (String × Int)
deriving Repr

/-- Source lines 132-144: build the entry from the computed input paths, the
parsed arguments and the current time in milliseconds. -/
def makeEntry (args : ParsedArgs) (input_paths : List String) (nowMs : Int) :
    Entry where
  input_type := "fs"
  input_config_paths := input_paths
  input_config_path_prefix_to_remove := args.path_prefix_to_remove
  status := "pending"
  submission_timestamp := nowMs
  logs_uncompressed_size := 0
  logs_compressed_size := 0
  errors := false
  output_config := buildOutputConfig args

/-- Source lines 153-156: the submission phase performs exactly one
`insert_one` call, with no retry; these are the documents it creates. -/
def submissionInserts (args : ParsedArgs) (input_paths : List String)
    (nowMs : Int) : List Entry :=
  [makeEntry args input_paths nowMs]

/-- The five tuning-parameter keys that may appear in `output_config`. -/
def outputConfigKeys : List String :=
  ["target_archive_size", "target_archive_dictionaries_data_size",
   "target_segment_size", "target_encoded_file_size", "target_num_archives"]

/-- A freshly created record as the worker would first see it. -/
def pendingDoc : JobDoc where
  status := "pending"
  begin_timestamp := none
  end_timestamp := none
  logs_uncompressed_size := 0
  logs_compressed_size := 0
  errors := false

/-- A record the worker has started executing. -/
def runningDoc : JobDoc := { pendingDoc with status := "running" }

/-- A running record with progressed size counters (spec §8 scenario
figures). -/
def grownDoc : JobDoc :=
  { runningDoc with
    logs_uncompressed_size := 1000000
    logs_compressed_size := 250000 }

/-- A finished record matching the spec's §8 scenario: 1,000,000 bytes
compressed into 250,000 over 2000 ms. -/
def doneDoc : JobDoc where
  status := "done"
  begin_timestamp := some (.ms 0)
  end_timestamp := some (.ms 2000)
  logs_uncompressed_size := 1000000
  logs_compressed_size := 250000
  errors := false

/-- A record carrying a status string outside the six defined states. -/
def bogusDoc : JobDoc := { pendingDoc with status := "bogus" }

/-- A record the worker marked as failed. -/
def failedDoc : JobDoc := { pendingDoc with status := "failed" }

/-- A finished record whose begin and end timestamps coincide. -/
def zeroRuntimeDoc : JobDoc := { doneDoc with end_timestamp := some (.ms 0) }

/-- A sample argument set supplying exactly one tuning parameter. -/
def sampleArgs : ParsedArgs where
  paths := ["/a", "/b"]
  input_list := none
  path_prefix_to_remove := none
  target_archive_size := some 100
  target_archive_dictionaries_data_size := none
  target_segment_size := none
  target_encoded_file_size := none
  target_num_archives := none

/-! ## Theorems -/

/-- Helper: the status phase either keeps polling — with the last-seen size
it received and no output — or it emits no progress event and does not keep
polling. -/
theorem statusPhase_shape (l : Int) (doc : JobDoc) :
    statusPhase l doc = ([], Control.keepPolling l) ∨
    ((∀ (u c : Int) (r : Rat),
        LogEvent.progress u c r ∉ (statusPhase l doc).1) ∧
      ∀ l', (statusPhase l doc).2 ≠ Control.keepPolling l') := by
  rcases hst : JobStatus.from_str doc.status with _ | st
  · right; constructor <;> simp [statusPhase, hst]
  · cases st
    case PENDING => left; simp [statusPhase, hst]
    case RUNNING => left; simp [statusPhase, hst]
    case CANCELLING => left; simp [statusPhase, hst]
    case CANCELLED => right; constructor <;> simp [statusPhase, hst]
    case FAILED => right; constructor <;> simp [statusPhase, hst]
    case DONE =>
      right
      rcases hend : doc.end_timestamp with _ | e
      · constructor <;> simp [statusPhase, hst, hend]
      · rcases hbeg : doc.begin_timestamp with _ | b
        · constructor <;> simp [statusPhase, hst, hend, hbeg]
        · rcases hts : tsSub e b with _ | delta
          · constructor <;> simp [statusPhase, hst, hend, hbeg, hts]
          · by_cases hz : normalizeRuntime delta = 0
            · constructor <;> simp [statusPhase, hst, hend, hbeg, hts, hz]
            · by_cases herr : doc.errors <;> constructor <;>
                simp [statusPhase, hst, hend, hbeg, hts, hz, herr]

/-- Helper: the status-dispatch phase never emits a progress event. -/
theorem statusPhase_no_progress (l : Int) (doc : JobDoc) (u c : Int) (r : Rat) :
    LogEvent.progress u c r ∉ (statusPhase l doc).1 := by
  rcases statusPhase_shape l doc with heq | ⟨hnp, _⟩
  · rw [heq]; simp
  · exact hnp u c r

/-- Helper: a status phase that keeps polling emits nothing and leaves the
last-seen size it received untouched. -/
theorem statusPhase_keepPolling (l l' : Int) (doc : JobDoc)
    (h : (statusPhase l doc).2 = .keepPolling l') :
    l' = l ∧ (statusPhase l doc).1 = [] := by
  rcases statusPhase_shape l doc with heq | ⟨_, hne⟩
  · rw [heq] at h ⊢
    simp at h ⊢
    exact h.symm
  · exact absurd h (hne l')

/-- Helper: unfolding one non-terminal iteration of the monitoring loop. -/
theorem monitorRun_cons_keepPolling (last : Int) (d : Option JobDoc)
    (rest : List (Option JobDoc)) (evs : List LogEvent) (last' : Int)
    (h : monitorStep last d = (evs, .keepPolling last')) :
    monitorRun last (d :: rest) =
      (evs ++ (monitorRun last' rest).1, (monitorRun last' rest).2) := by
  rw [monitorRun.eq_def]
  simp only [h]

/-- Helper: unfolding a terminal iteration of the monitoring loop. -/
theorem monitorRun_cons_term (last : Int) (d : Option JobDoc)
    (rest : List (Option JobDoc)) (evs : List LogEvent) (t : MonTerm)
    (h : monitorStep last d = (evs, .term t)) :
    monitorRun last (d :: rest) = (evs, .term t) := by
  rw [monitorRun.eq_def]
  simp only [h]

/-- Helper: unfolding a raising iteration of the monitoring loop. -/
theorem monitorRun_cons_raised (last : Int) (d : Option JobDoc)
    (rest : List (Option JobDoc)) (evs : List LogEvent) (e : PyErr)
    (h : monitorStep last d = (evs, .raised e)) :
    monitorRun last (d :: rest) = (evs, .raised e) := by
  rw [monitorRun.eq_def]
  simp only [h]

/-- Helper: decoding the six defined status strings. -/
theorem from_str_defined :
    JobStatus.from_str "pending" = some .PENDING ∧
    JobStatus.from_str "running" = some .RUNNING ∧
    JobStatus.from_str "cancelling" = some .CANCELLING ∧
    JobStatus.from_str "cancelled" = some .CANCELLED ∧
    JobStatus.from_str "done" = some .DONE ∧
    JobStatus.from_str "failed" = some .FAILED := by
  refine ⟨by decide, by decide, by decide, by decide, by decide, by decide⟩

/-- Helper: the progress phase never raises when the last-seen size is
non-negative, and either emits the exact report and updates the last-seen
size (strict increase) or emits nothing and keeps it (otherwise). -/
theorem progressPhase_eq (last u c : Int) (h : 0 ≤ last) :
    progressPhase last u c =
      if last < u then
        some (some (.progress u c ((c : Rat) / (u : Rat) * 100)), u)
      else some (none, last) := by
  unfold progressPhase
  by_cases hlt : last < u
  · have hu : ¬ u = 0 := by omega
    simp [hlt, hu]
  · simp [hlt]

/-- Helper: closed form of a monitoring iteration on a found document when
the last-seen size is non-negative. -/
theorem monitorStep_some_eq (last : Int) (doc : JobDoc) (h : 0 ≤ last) :
    monitorStep last (some doc) =
      if last < doc.logs_uncompressed_size then
        (.progress doc.logs_uncompressed_size doc.logs_compressed_size
            ((doc.logs_compressed_size : Rat) /
              (doc.logs_uncompressed_size : Rat) * 100)
          :: (statusPhase doc.logs_uncompressed_size doc).1,
         (statusPhase doc.logs_uncompressed_size doc).2)
      else statusPhase last doc := by
  rw [monitorStep, progressPhase_eq last _ _ h]
  by_cases hlt : last < doc.logs_uncompressed_size
  · simp [hlt]
  · simp [hlt]

/-- C4: on every polling iteration a progress report is emitted iff the
observed `logs_uncompressed_size` strictly exceeds the last-seen size; the
report carries the uncompressed size, the compressed size and the ratio
`compressed/uncompressed * 100`, and the status phase then runs with the
last-seen size updated to the observed value; on non-increase the iteration
is exactly the status phase on the old value, which emits no progress
report. -/
theorem progress_report_iff_increase :
    ∀ (last : Int) (doc : JobDoc), 0 ≤ last →
      (last < doc.logs_uncompressed_size →
        monitorStep last (some doc) =
          (.progress doc.logs_uncompressed_size doc.logs_compressed_size
              ((doc.logs_compressed_size : Rat) /
                (doc.logs_uncompressed_size : Rat) * 100)
            :: (statusPhase doc.logs_uncompressed_size doc).1,
           (statusPhase doc.logs_uncompressed_size doc).2)) ∧
      (¬ last < doc.logs_uncompressed_size →
        monitorStep last (some doc) = statusPhase last doc) ∧
      (∀ (l u c : Int) (r : Rat),
        LogEvent.progress u c r ∉ (statusPhase l doc).1) := by
  intro last doc h
  refine ⟨?_, ?_, fun l u c r => statusPhase_no_progress l doc u c r⟩
  · intro hlt
    rw [monitorStep_some_eq last doc h, if_pos hlt]
  · intro hlt
    rw [monitorStep_some_eq last doc h, if_neg hlt]

/-- Witness for C4: the spec's scenario sizes on a running record. -/
theorem progress_report_iff_increase_witness :
    monitorStep 0 (some grownDoc) =
      (.progress 1000000 250000 25
        :: (statusPhase 1000000 grownDoc).1, (statusPhase 1000000 grownDoc).2) := by
  have h := (progress_report_iff_increase 0 grownDoc (by decide)).1 (by decide)
  rw [h]
  norm_num [grownDoc, runningDoc, pendingDoc]

/-- Helper: every progress event emitted along a run from a non-negative
last-seen size has a strictly positive divisor and carries the exact
ratio. -/
theorem monitorRun_progress_events (trace : List (Option JobDoc)) :
    ∀ (last : Int), 0 ≤ last →
      ∀ (u c : Int) (r : Rat),
        LogEvent.progress u c r ∈ (monitorRun last trace).1 →
          0 < u ∧ r = (c : Rat) / (u : Rat) * 100 := by
  induction trace with
  | nil => intro last h u c r hmem; simp [monitorRun] at hmem
  | cons d rest ih =>
    intro last h u c r hmem
    cases d with
    | none =>
      rw [monitorRun_cons_term last none rest [.jobDisappeared] .disappeared
        rfl] at hmem
      simp at hmem
    | some doc =>
      by_cases hlt : last < doc.logs_uncompressed_size
      · have hstep := monitorStep_some_eq last doc h
        rw [if_pos hlt] at hstep
        rcases hsp : statusPhase doc.logs_uncompressed_size doc with ⟨sevs, sctl⟩
        rw [hsp] at hstep
        have hnp : LogEvent.progress u c r ∉ sevs := by
          have := statusPhase_no_progress doc.logs_uncompressed_size doc u c r
          rw [hsp] at this
          exact this
        cases sctl with
        | keepPolling l' =>
          have hkp := statusPhase_keepPolling doc.logs_uncompressed_size l' doc
            (by rw [hsp])
          rcases hkp with ⟨hl', hevs⟩
          rw [hsp] at hevs
          simp only at hevs
          subst hevs
          subst hl'
          rw [monitorRun_cons_keepPolling last (some doc) rest _ _ hstep] at hmem
          simp only [List.cons_append, List.nil_append, List.mem_cons] at hmem
          rcases hmem with hhead | htail
          · injection hhead with h1 h2 h3
            subst h1; subst h2; subst h3
            exact ⟨by omega, rfl⟩
          · exact ih doc.logs_uncompressed_size (by omega) u c r htail
        | term t =>
          rw [monitorRun_cons_term last (some doc) rest _ _ hstep] at hmem
          simp only [List.mem_cons] at hmem
          rcases hmem with hhead | htail
          · injection hhead with h1 h2 h3
            subst h1; subst h2; subst h3
            exact ⟨by omega, rfl⟩
          · exact absurd htail hnp
        | raised e =>
          rw [monitorRun_cons_raised last (some doc) rest _ _ hstep] at hmem
          simp only [List.mem_cons] at hmem
          rcases hmem with hhead | htail
          · injection hhead with h1 h2 h3
            subst h1; subst h2; subst h3
            exact ⟨by omega, rfl⟩
          · exact absurd htail hnp
      · have hstep := monitorStep_some_eq last doc h
        rw [if_neg hlt] at hstep
        rcases hsp : statusPhase last doc with ⟨sevs, sctl⟩
        rw [hsp] at hstep
        have hnp : LogEvent.progress u c r ∉ sevs := by
          have := statusPhase_no_progress last doc u c r
          rw [hsp] at this
          exact this
        cases sctl with
        | keepPolling l' =>
          have hkp := statusPhase_keepPolling last l' doc (by rw [hsp])
          rcases hkp with ⟨hl', hevs⟩
          rw [hsp] at hevs
          simp only at hevs
          subst hevs
          rw [monitorRun_cons_keepPolling last (some doc) rest _ _ hstep] at hmem
          rw [hl'] at hmem
          simp only [List.nil_append] at hmem
          exact ih last h u c r hmem
        | term t =>
          rw [monitorRun_cons_term last (some doc) rest _ _ hstep] at hmem
          exact absurd hmem hnp
        | raised e =>
          rw [monitorRun_cons_raised last (some doc) rest _ _ hstep] at hmem
          exact absurd hmem hnp

/-- C9: every progress report the monitoring loop (started from a last-seen
size of 0) ever emits has a strictly positive uncompressed size as the
ratio's divisor, so the compression-ratio division never divides by zero
and the ratio is exactly `compressed/uncompressed * 100`. -/
theorem progress_ratio_divisor_positive :
    ∀ (trace : List (Option JobDoc)) (u c : Int) (r : Rat),
      LogEvent.progress u c r ∈ (monitorRun 0 trace).1 →
        0 < u ∧ r = (c : Rat) / (u : Rat) * 100 := by
  intro trace u c r hmem
  exact monitorRun_progress_events trace 0 (by omega) u c r hmem

/-- Witness for C9 on a one-observation trace with the spec's scenario
sizes. -/
theorem progress_ratio_divisor_positive_witness :
    0 < (1000000 : Int) ∧ (25 : Rat) = ((250000 : Int) : Rat) / ((1000000 : Int) : Rat) * 100 := by
  have hmem : LogEvent.progress 1000000 250000 25 ∈
      (monitorRun 0 [some grownDoc]).1 := by
    norm_num [monitorRun, monitorStep, progressPhase, statusPhase,
      from_str_defined.2.1, grownDoc, runningDoc, pendingDoc]
  exact progress_ratio_divisor_positive [some grownDoc] 1000000 250000 25 hmem

/-- C1: cancellation is a single atomic conditional update that sets status
to CANCELLING iff the record's current status is PENDING; for RUNNING, DONE,
FAILED and CANCELLED records it matches nothing and leaves the status
unchanged. -/
theorem cancel_update_iff_pending :
    ∀ d : JobDoc,
      ((condCancelUpdate (some d)).2.isSome ↔
        d.status = JobStatus.toStr .PENDING) ∧
      (d.status = JobStatus.toStr .PENDING →
        condCancelUpdate (some d) =
          (some { d with status := JobStatus.toStr .CANCELLING }, some d)) ∧
      (∀ st : JobStatus,
        st = .RUNNING ∨ st = .DONE ∨ st = .FAILED ∨ st = .CANCELLED →
        d.status = JobStatus.toStr st →
        condCancelUpdate (some d) = (some d, none)) := by
  intro d
  refine ⟨?_, ?_, ?_⟩
  · by_cases h : d.status = JobStatus.toStr .PENDING
    · simp [condCancelUpdate, h]
    · simp [condCancelUpdate, h]
  · intro h
    simp [condCancelUpdate, h]
  · intro st hst h
    have hne : d.status ≠ JobStatus.toStr .PENDING := by
      rcases hst with h1 | h1 | h1 | h1 <;> subst h1 <;> rw [h] <;> decide
    simp [condCancelUpdate, hne]

/-- Witness for C1 at the concrete pending and running records. -/
theorem cancel_update_iff_pending_witness :
    condCancelUpdate (some pendingDoc) =
      (some { pendingDoc with status := JobStatus.toStr .CANCELLING },
        some pendingDoc) ∧
    condCancelUpdate (some runningDoc) = (some runningDoc, none) :=
  ⟨(cancel_update_iff_pending pendingDoc).2.1 rfl,
   (cancel_update_iff_pending runningDoc).2.2 .RUNNING (Or.inl rfl) rfl⟩

/-- C2: when the conditional cancellation update matches no document, the
handler reports the job is already running and will continue unattended,
consults the wait trace not at all (the result is the same for every
`waitTrace`), leaves the store unchanged, and `main` returns 0. -/
theorem cancel_no_match_returns_zero :
    ∀ (d : JobDoc) (waitTrace : List (Option String)),
      d.status ≠ JobStatus.toStr .PENDING →
      handleKeyboardInterrupt (some ()) (some d) waitTrace =
        ([.tryingToCancel, .alreadyStartedWillContinue], some d, .ret 0) ∧
      exitStatus (MainOutcome.ret 0) = some 0 := by
  intro d wt h
  refine ⟨?_, rfl⟩
  simp [handleKeyboardInterrupt, condCancelUpdate, h]

/-- Witness for C2 at a running record with a non-empty wait trace. -/
theorem cancel_no_match_returns_zero_witness :
    handleKeyboardInterrupt (some ()) (some runningDoc) [some "cancelled"] =
      ([.tryingToCancel, .alreadyStartedWillContinue], some runningDoc,
        .ret 0) ∧
    exitStatus (MainOutcome.ret 0) = some 0 :=
  cancel_no_match_returns_zero runningDoc [some "cancelled"] (by decide)

/-- C10: an interruption with `job_id` still `None` skips the conditional
update entirely — the store is returned unchanged for every store state and
every wait trace — and `main` returns 0. -/
theorem interrupt_before_id_skips_update :
    ∀ (store : Option JobDoc) (waitTrace : List (Option String)),
      handleKeyboardInterrupt none store waitTrace =
        ([.tryingToCancel], store, .ret 0) ∧
      exitStatus (MainOutcome.ret 0) = some 0 := by
  intro s wt
  exact ⟨rfl, rfl⟩

/-- Helper: the DONE branch of the status phase when both timestamps are
present and of comparable encodings. -/
theorem statusPhase_done (l : Int) (doc : JobDoc) (e b : TsVal)
    (delta : RuntimeDelta)
    (hst : JobStatus.from_str doc.status = some .DONE)
    (hend : doc.end_timestamp = some e)
    (hbeg : doc.begin_timestamp = some b)
    (hts : tsSub e b = some delta) :
    statusPhase l doc =
      if normalizeRuntime delta = 0 then ([], .raised .zeroDivisionError)
      else
        ((.compressionFinished (normalizeRuntime delta)
              ((l : Rat) / normalizeRuntime delta)) ::
            (if doc.errors then [.errorsOccurred] else []),
          .term (.done (normalizeRuntime delta)
            ((l : Rat) / normalizeRuntime delta) doc.errors)) := by
  simp [statusPhase, hst, hend, hbeg, hts]

/-- Helper: a status phase terminating with an unknown status names the
document's own status string, which is outside the enumeration, and its
whole output is that one diagnostic. -/
theorem statusPhase_unknown (l : Int) (doc : JobDoc) (s : String)
    (h : (statusPhase l doc).2 = .term (.unknown s)) :
    s = doc.status ∧ JobStatus.from_str doc.status = none ∧
    (statusPhase l doc).1 = [.unknownStatus doc.status] := by
  rcases hst : JobStatus.from_str doc.status with _ | st
  · have heq : statusPhase l doc =
        ([.unknownStatus doc.status], .term (.unknown doc.status)) := by
      simp [statusPhase, hst]
    rw [heq] at h ⊢
    simp at h ⊢
    exact h.symm
  · exfalso
    cases st
    case DONE =>
      rcases hend : doc.end_timestamp with _ | e
      · simp [statusPhase, hst, hend] at h
      · rcases hbeg : doc.begin_timestamp with _ | b
        · simp [statusPhase, hst, hend, hbeg] at h
        · rcases hts : tsSub e b with _ | delta
          · simp [statusPhase, hst, hend, hbeg, hts] at h
          · by_cases hz : normalizeRuntime delta = 0 <;>
              simp [statusPhase, hst, hend, hbeg, hts, hz] at h
    all_goals simp [statusPhase, hst] at h

/-- Helper: a progress-phase result's optional event is either nothing or
the progress report for the observed sizes. -/
theorem progressPhase_event_shape (last u c : Int) (ev? : Option LogEvent)
    (l' : Int) (h : progressPhase last u c = some (ev?, l')) :
    ev? = none ∨
    ev? = some (.progress u c ((c : Rat) / (u : Rat) * 100)) := by
  unfold progressPhase at h
  by_cases hlt : last < u
  · rw [if_pos hlt] at h
    by_cases hu : u = 0
    · rw [if_pos hu] at h
      simp at h
    · rw [if_neg hu] at h
      rw [Option.some_inj, Prod.mk.injEq] at h
      right
      exact h.1.symm
  · rw [if_neg hlt] at h
    rw [Option.some_inj, Prod.mk.injEq] at h
    left
    exact h.1.symm

/-- Helper: a non-terminal monitoring iteration logs no unknown-status
diagnostic. -/
theorem monitorStep_keepPolling_no_unknown (last : Int) (d : Option JobDoc)
    (evs : List LogEvent) (l' : Int)
    (h : monitorStep last d = (evs, .keepPolling l')) (s : String) :
    LogEvent.unknownStatus s ∉ evs := by
  cases d with
  | none => simp [monitorStep] at h
  | some doc =>
    rw [monitorStep] at h
    rcases hpp : progressPhase last doc.logs_uncompressed_size
        doc.logs_compressed_size with _ | p
    · rw [hpp] at h
      simp at h
    · rcases p with ⟨ev?, l''⟩
      rw [hpp] at h
      simp only at h
      rcases hsp : statusPhase l'' doc with ⟨sevs, sctl⟩
      rw [hsp] at h
      injection h with h1 h2
      subst h1
      obtain ⟨hl, hevs⟩ := statusPhase_keepPolling l'' l' doc (by rw [hsp, h2])
      rw [hsp] at hevs
      simp only at hevs
      subst hevs
      rcases progressPhase_event_shape last _ _ ev? l'' hpp with hev | hev <;>
        subst hev <;> simp

/-- Helper: a monitoring iteration terminating on an unknown status names a
string outside the enumeration, and its event output is an optional
progress report followed by exactly the one diagnostic. -/
theorem monitorStep_term_unknown (last : Int) (d : Option JobDoc)
    (evs : List LogEvent) (s : String)
    (h : monitorStep last d = (evs, .term (.unknown s))) :
    JobStatus.from_str s = none ∧
    ∃ evs₀, evs = evs₀ ++ [.unknownStatus s] ∧
      ∀ s', LogEvent.unknownStatus s' ∉ evs₀ := by
  cases d with
  | none => simp [monitorStep] at h
  | some doc =>
    rw [monitorStep] at h
    rcases hpp : progressPhase last doc.logs_uncompressed_size
        doc.logs_compressed_size with _ | p
    · rw [hpp] at h
      simp at h
    · rcases p with ⟨ev?, l''⟩
      rw [hpp] at h
      simp only at h
      rcases hsp : statusPhase l'' doc with ⟨sevs, sctl⟩
      rw [hsp] at h
      injection h with h1 h2
      subst h1
      obtain ⟨hs, hfs, hevs⟩ := statusPhase_unknown l'' doc s (by rw [hsp, h2])
      rw [hsp] at hevs
      simp only at hevs
      subst hevs
      subst hs
      refine ⟨hfs, ev?.toList, rfl, ?_⟩
      intro s'
      rcases progressPhase_event_shape last _ _ ev? l'' hpp with hev | hev <;>
        subst hev <;> simp

/-- Helper: a run of the monitoring loop that terminates on an unknown
status decodes a string outside the enumeration and logs exactly one
unknown-status diagnostic, as its final event. -/
theorem monitorRun_unknown_char (trace : List (Option JobDoc)) :
    ∀ (last : Int) (evs : List LogEvent) (s : String),
      monitorRun last trace = (evs, .term (.unknown s)) →
        JobStatus.from_str s = none ∧
        ∃ evs₀, evs = evs₀ ++ [.unknownStatus s] ∧
          ∀ s', LogEvent.unknownStatus s' ∉ evs₀ := by
  induction trace with
  | nil =>
    intro last evs s h
    simp [monitorRun] at h
  | cons d rest ih =>
    intro last evs s h
    rcases hstep : monitorStep last d with ⟨evs1, ctl⟩
    cases ctl with
    | keepPolling l' =>
      rw [monitorRun_cons_keepPolling last d rest _ _ hstep] at h
      injection h with h1 h2
      have hrun : monitorRun l' rest =
          ((monitorRun l' rest).1, .term (.unknown s)) := by
        rw [← h2]
      obtain ⟨hfs, evs0, heq, hnone⟩ := ih l' (monitorRun l' rest).1 s hrun
      refine ⟨hfs, evs1 ++ evs0, ?_, ?_⟩
      · rw [← h1, heq, List.append_assoc]
      · intro s'
        simp only [List.mem_append, not_or]
        exact ⟨monitorStep_keepPolling_no_unknown last d evs1 l' hstep s',
          hnone s'⟩
    | term t =>
      rw [monitorRun_cons_term last d rest _ _ hstep] at h
      injection h with h1 h2
      injection h2 with h3
      subst h3
      rw [← h1]
      exact monitorStep_term_unknown last d evs1 s hstep
    | raised e =>
      rw [monitorRun_cons_raised last d rest _ _ hstep] at h
      simp at h

/-- C3 counterexample: polling a document whose status string is outside
the six defined states inside the cancellation-wait loop raises an uncaught
KeyError and logs no diagnostic naming the unknown status, contradicting
the claim that both loops report exactly one such diagnostic. -/
theorem cancel_wait_unknown_no_diagnostic :
    JobStatus.from_str "bogus" = none ∧
    cancelWaitRun [some "bogus"] = ([], .raised (.keyError "bogus")) ∧
    LogEvent.unknownStatus "bogus" ∉ (cancelWaitRun [some "bogus"]).1 := by
  refine ⟨by decide, by decide, by decide⟩

/-- C3 (amended): in the normal monitoring loop an unknown status string
stops polling, logs exactly one diagnostic naming it, and `main` returns -1
(process exit status 255, non-zero); in the cancellation-wait loop an
unknown status string instead raises an uncaught KeyError naming the
string — the process still exits non-zero (interpreter status 1) but
without logging the diagnostic. -/
theorem unknown_status_handling :
    (∀ (trace : List (Option JobDoc)) (evs : List LogEvent) (s : String),
      monitorRun 0 trace = (evs, .term (.unknown s)) →
        JobStatus.from_str s = none ∧
        (∃ evs₀, evs = evs₀ ++ [.unknownStatus s] ∧
          ∀ s', LogEvent.unknownStatus s' ∉ evs₀) ∧
        (monitorMain trace).2 = .ret (-1) ∧
        exitStatus (monitorMain trace).2 = some 255 ∧ (255 : Nat) ≠ 0) ∧
    (∀ (s : String) (rest : List (Option String)),
      JobStatus.from_str s = none →
        cancelWaitRun (some s :: rest) = ([], .raised (.keyError s)) ∧
        (∀ s', LogEvent.unknownStatus s' ∉
          (cancelWaitRun (some s :: rest)).1) ∧
        exitStatus (.raised (.keyError s)) = some 1 ∧ (1 : Nat) ≠ 0) := by
  constructor
  · intro trace evs s h
    obtain ⟨hfs, hdiag⟩ := monitorRun_unknown_char trace 0 evs s h
    have hmain : (monitorMain trace).2 = .ret (-1) := by
      simp [monitorMain, h, termReturn]
    refine ⟨hfs, hdiag, hmain, ?_, by decide⟩
    rw [hmain]
    decide
  · intro s rest hs
    have heq : cancelWaitRun (some s :: rest) =
        ([], .raised (.keyError s)) := by
      simp [cancelWaitRun, hs]
    refine ⟨heq, ?_, rfl, by decide⟩
    intro s'
    rw [heq]
    simp

/-- Witness for C3 (amended) on a bogus-status record and a bogus status
string in the cancellation wait. -/
theorem unknown_status_handling_witness :
    exitStatus (monitorMain [some bogusDoc]).2 = some 255 ∧
    cancelWaitRun [some "bogus"] = ([], MainOutcome.raised (.keyError "bogus")) :=
  ⟨((unknown_status_handling.1 [some bogusDoc] [.unknownStatus "bogus"]
      "bogus" (by decide)).2.2.2).1,
   (unknown_status_handling.2 "bogus" [] (by decide)).1⟩

/-- C5: for a DONE document the reported runtime is
`end_timestamp - begin_timestamp` normalized to seconds — a millisecond
integer difference is divided by 1000, a duration is taken as its total
seconds — and the reported throughput is the total uncompressed bytes
divided by that runtime. -/
theorem done_runtime_and_throughput :
    (∀ n : Int, normalizeRuntime (.num n) = (n : Rat) / 1000) ∧
    (∀ s : Rat, normalizeRuntime (.duration s) = s) ∧
    (∀ (last : Int) (doc : JobDoc) (e b : TsVal) (delta : RuntimeDelta),
      0 ≤ last → last ≤ doc.logs_uncompressed_size →
      JobStatus.from_str doc.status = some .DONE →
      doc.end_timestamp = some e → doc.begin_timestamp = some b →
      tsSub e b = some delta → normalizeRuntime delta ≠ 0 →
      (monitorStep last (some doc)).2 =
        .term (.done (normalizeRuntime delta)
          ((doc.logs_uncompressed_size : Rat) / normalizeRuntime delta)
          doc.errors) ∧
      LogEvent.compressionFinished (normalizeRuntime delta)
          ((doc.logs_uncompressed_size : Rat) / normalizeRuntime delta)
        ∈ (monitorStep last (some doc)).1) := by
  refine ⟨fun n => rfl, fun s => rfl, ?_⟩
  intro last doc e b delta h0 hle hst hend hbeg hts hrz
  by_cases hlt : last < doc.logs_uncompressed_size
  · rw [monitorStep_some_eq last doc h0, if_pos hlt,
      statusPhase_done doc.logs_uncompressed_size doc e b delta hst hend hbeg
        hts, if_neg hrz]
    exact ⟨rfl, by simp⟩
  · have heq : last = doc.logs_uncompressed_size := by omega
    rw [heq] at h0 ⊢
    rw [monitorStep_some_eq _ doc h0, if_neg (by omega),
      statusPhase_done doc.logs_uncompressed_size doc e b delta hst hend hbeg
        hts, if_neg hrz]
    exact ⟨rfl, by simp⟩

/-- Witness for C5 on the spec's §8 scenario record: 2000 ms runtime and
500,000 B/s throughput. -/
theorem done_runtime_and_throughput_witness :
    (monitorStep 0 (some doneDoc)).2 = .term (.done 2 500000 false) := by
  have h := (done_runtime_and_throughput.2.2 0 doneDoc (.ms 2000) (.ms 0)
    (.num 2000) (by decide) (by decide) (by decide) rfl rfl (by decide)
    (by norm_num [normalizeRuntime])).1
  rw [h]
  norm_num [normalizeRuntime, doneDoc]

/-- Helper: every cancellation-wait run either exhausts its trace while
still waiting, stops on a disappearance returning -1, stops with the
reported cancelled outcome returning 0, or raises an uncaught KeyError
naming a status outside the enumeration. -/
theorem cancelWaitRun_shape (waitTrace : List (Option String)) :
    cancelWaitRun waitTrace = ([], .neverExits) ∨
    cancelWaitRun waitTrace = ([.jobDisappeared], .ret (-1)) ∨
    cancelWaitRun waitTrace = ([.cancelledJobs], .ret 0) ∨
    ∃ s, JobStatus.from_str s = none ∧
      cancelWaitRun waitTrace = ([], .raised (.keyError s)) := by
  induction waitTrace with
  | nil => exact Or.inl rfl
  | cons d rest ih =>
    cases d with
    | none => exact Or.inr (Or.inl rfl)
    | some s =>
      rcases hfs : JobStatus.from_str s with _ | st
      · exact Or.inr (Or.inr (Or.inr ⟨s, hfs, by simp [cancelWaitRun, hfs]⟩))
      · by_cases hterm : st = .CANCELLED ∨ st = .DONE
        · refine Or.inr (Or.inr (Or.inl ?_))
          simp [cancelWaitRun, hfs, hterm]
        · have heq : cancelWaitRun (some s :: rest) = cancelWaitRun rest := by
            simp [cancelWaitRun, hfs, hterm]
          rw [heq]
          exact ih

/-- C6: runs that end in a reported terminal outcome make `main` return 0
and the process exit 0, and runs that end in a configuration/validation
failure, a disappeared job, or an unknown-status decoding error exit
non-zero.  In the normal monitoring loop: FAILED, CANCELLED and DONE (with
or without the errors flag) return 0; disappearance and unknown status
return -1 (exit 255).  In the cancellation-wait loop of an interrupted run,
whose outcome is the whole run's outcome (last conjunct): every wait run is
either still waiting, a disappearance returning -1 (exit 255), the
reported cancelled/done outcome returning 0, or an uncaught KeyError on an
unknown status (interpreter exit 1, non-zero); an observed CANCELLED or
DONE status always produces the reported outcome and return 0. -/
theorem exit_codes :
    (mainConfigFailure.2 = .ret (-1) ∧
      exitStatus mainConfigFailure.2 = some 255 ∧ (255 : Nat) ≠ 0) ∧
    (∀ (trace : List (Option JobDoc)) (evs : List LogEvent) (t : MonTerm),
      monitorRun 0 trace = (evs, .term t) →
        ((t = .failed ∨ t = .cancelled ∨ ∃ r sp er, t = .done r sp er) →
          (monitorMain trace).2 = .ret 0 ∧
          exitStatus (monitorMain trace).2 = some 0) ∧
        ((t = .disappeared ∨ ∃ s, t = .unknown s) →
          (monitorMain trace).2 = .ret (-1) ∧
          exitStatus (monitorMain trace).2 = some 255 ∧
          (255 : Nat) ≠ 0)) ∧
    (∀ waitTrace : List (Option String),
      cancelWaitRun waitTrace = ([], .neverExits) ∨
      (cancelWaitRun waitTrace = ([.jobDisappeared], .ret (-1)) ∧
        exitStatus (MainOutcome.ret (-1)) = some 255 ∧ (255 : Nat) ≠ 0) ∨
      (cancelWaitRun waitTrace = ([.cancelledJobs], .ret 0) ∧
        exitStatus (MainOutcome.ret 0) = some 0) ∨
      (∃ s, JobStatus.from_str s = none ∧
        cancelWaitRun waitTrace = ([], .raised (.keyError s)) ∧
        exitStatus (MainOutcome.raised (.keyError s)) = some 1 ∧
        (1 : Nat) ≠ 0)) ∧
    (∀ (s : String) (rest : List (Option String)),
      (JobStatus.from_str s = some .CANCELLED ∨
        JobStatus.from_str s = some .DONE) →
      cancelWaitRun (some s :: rest) = ([.cancelledJobs], .ret 0) ∧
      exitStatus (MainOutcome.ret 0) = some 0) ∧
    (∀ (d : JobDoc) (waitTrace : List (Option String)),
      d.status = JobStatus.toStr .PENDING →
      (handleKeyboardInterrupt (some ()) (some d) waitTrace).2.2 =
        (cancelWaitRun waitTrace).2) := by
  refine ⟨⟨rfl, by decide, by decide⟩, ?_, ?_, ?_, ?_⟩
  · intro trace evs t h
    constructor
    · rintro (rfl | rfl | ⟨r, sp, er, rfl⟩) <;>
        (have hmain : (monitorMain trace).2 = .ret 0 := by
          simp [monitorMain, h, termReturn]) <;>
        exact ⟨hmain, by rw [hmain]; decide⟩
    · rintro (rfl | ⟨s, rfl⟩) <;>
        (have hmain : (monitorMain trace).2 = .ret (-1) := by
          simp [monitorMain, h, termReturn]) <;>
        exact ⟨hmain, by rw [hmain]; decide, by decide⟩
  · intro waitTrace
    rcases cancelWaitRun_shape waitTrace with h | h | h | ⟨s, hfs, h⟩
    · exact Or.inl h
    · exact Or.inr (Or.inl ⟨h, by decide, by decide⟩)
    · exact Or.inr (Or.inr (Or.inl ⟨h, by decide⟩))
    · exact Or.inr (Or.inr (Or.inr ⟨s, hfs, h, rfl, by decide⟩))
  · intro s rest hso
    refine ⟨?_, by decide⟩
    rcases hso with hfs | hfs <;> simp [cancelWaitRun, hfs]
  · intro d waitTrace h
    rcases hcw : cancelWaitRun waitTrace with ⟨evs, out⟩
    simp [handleKeyboardInterrupt, condCancelUpdate, h, hcw]

/-- Witness for C6 on a one-observation failed monitor trace, a cancelled
wait observation, and an interrupted run on a pending record. -/
theorem exit_codes_witness :
    exitStatus (monitorMain [some failedDoc]).2 = some 0 ∧
    cancelWaitRun [some "cancelled"] = ([.cancelledJobs], .ret 0) ∧
    (handleKeyboardInterrupt (some ()) (some pendingDoc)
        [some "cancelled"]).2.2 = (cancelWaitRun [some "cancelled"]).2 :=
  ⟨((exit_codes.2.1 [some failedDoc] [.compressionFailed] .failed
      (by decide)).1 (Or.inl rfl)).2,
   (exit_codes.2.2.2.1 "cancelled" [] (Or.inl (by decide))).1,
   exit_codes.2.2.2.2 pendingDoc [some "cancelled"] rfl⟩

/-- C8: the DONE branch guards the speed division by nothing: with both
timestamps present and of the same encoding, the iteration raises an
uncaught ZeroDivisionError exactly when the end timestamp equals the begin
timestamp, and reaches the DONE terminal outcome whenever they differ. -/
theorem done_equal_timestamps_divide_by_zero :
    ∀ (last : Int) (doc : JobDoc) (e b : TsVal) (delta : RuntimeDelta),
      0 ≤ last →
      JobStatus.from_str doc.status = some .DONE →
      doc.end_timestamp = some e → doc.begin_timestamp = some b →
      tsSub e b = some delta →
      (((monitorStep last (some doc)).2 = .raised .zeroDivisionError) ↔
        e = b) ∧
      (e ≠ b → ∃ r sp, (monitorStep last (some doc)).2 =
        .term (.done r sp doc.errors)) := by
  intro last doc e b delta h0 hst hend hbeg hts
  have hiff : normalizeRuntime delta = 0 ↔ e = b := by
    rcases e with a | a <;> rcases b with a' | a'
    · simp only [tsSub, Option.some_inj] at hts
      subst hts
      norm_num [normalizeRuntime, div_eq_zero_iff, sub_eq_zero]
    · simp [tsSub] at hts
    · simp [tsSub] at hts
    · simp only [tsSub, Option.some_inj] at hts
      subst hts
      simp [normalizeRuntime, sub_eq_zero]
  constructor
  · constructor
    · intro hz
      by_contra hne
      have hnz : normalizeRuntime delta ≠ 0 := fun h' => hne (hiff.mp h')
      by_cases hlt : last < doc.logs_uncompressed_size
      · rw [monitorStep_some_eq last doc h0, if_pos hlt,
          statusPhase_done doc.logs_uncompressed_size doc e b delta hst hend
            hbeg hts, if_neg hnz] at hz
        simp at hz
      · rw [monitorStep_some_eq last doc h0, if_neg hlt,
          statusPhase_done last doc e b delta hst hend hbeg hts,
          if_neg hnz] at hz
        simp at hz
    · intro heb
      have hz : normalizeRuntime delta = 0 := hiff.mpr heb
      by_cases hlt : last < doc.logs_uncompressed_size
      · rw [monitorStep_some_eq last doc h0, if_pos hlt,
          statusPhase_done doc.logs_uncompressed_size doc e b delta hst hend
            hbeg hts, if_pos hz]
      · rw [monitorStep_some_eq last doc h0, if_neg hlt,
          statusPhase_done last doc e b delta hst hend hbeg hts, if_pos hz]
  · intro hne
    have hnz : normalizeRuntime delta ≠ 0 := fun h' => hne (hiff.mp h')
    by_cases hlt : last < doc.logs_uncompressed_size
    · refine ⟨normalizeRuntime delta,
        (doc.logs_uncompressed_size : Rat) / normalizeRuntime delta, ?_⟩
      rw [monitorStep_some_eq last doc h0, if_pos hlt,
        statusPhase_done doc.logs_uncompressed_size doc e b delta hst hend
          hbeg hts, if_neg hnz]
    · refine ⟨normalizeRuntime delta,
        (last : Rat) / normalizeRuntime delta, ?_⟩
      rw [monitorStep_some_eq last doc h0, if_neg hlt,
        statusPhase_done last doc e b delta hst hend hbeg hts, if_neg hnz]

/-- Witness for C8 on a DONE record with coinciding timestamps. -/
theorem done_equal_timestamps_divide_by_zero_witness :
    (monitorStep 0 (some zeroRuntimeDoc)).2 = .raised .zeroDivisionError :=
  (done_equal_timestamps_divide_by_zero 0 zeroRuntimeDoc (.ms 0) (.ms 0)
    (.num 0) (by decide) (by decide) rfl rfl (by decide)).1.mpr rfl

/-- C7: every valid invocation creates exactly one job document, with
status "pending", errors false, both size counters 0, input_type "fs",
submission_timestamp the current time in milliseconds, and an output_config
holding exactly the explicitly supplied tuning parameters — looking up each
key returns precisely the supplied optional value, and every key present is
one of the five tuning keys. -/
theorem submission_single_pending_entry :
    ∀ (args : ParsedArgs) (input_paths : List String) (nowMs : Int),
      submissionInserts args input_paths nowMs =
        [makeEntry args input_paths nowMs] ∧
      (submissionInserts args input_paths nowMs).length = 1 ∧
      (makeEntry args input_paths nowMs).status = "pending" ∧
      (makeEntry args input_paths nowMs).errors = false ∧
      (makeEntry args input_paths nowMs).logs_uncompressed_size = 0 ∧
      (makeEntry args input_paths nowMs).logs_compressed_size = 0 ∧
      (makeEntry args input_paths nowMs).input_type = "fs" ∧
      (makeEntry args input_paths nowMs).submission_timestamp = nowMs ∧
      (makeEntry args input_paths nowMs).output_config =
        buildOutputConfig args ∧
      (buildOutputConfig args).lookup "target_archive_size" =
        args.target_archive_size ∧
      (buildOutputConfig args).lookup "target_archive_dictionaries_data_size" =
        args.target_archive_dictionaries_data_size ∧
      (buildOutputConfig args).lookup "target_segment_size" =
        args.target_segment_size ∧
      (buildOutputConfig args).lookup "target_encoded_file_size" =
        args.target_encoded_file_size ∧
      (buildOutputConfig args).lookup "target_num_archives" =
        args.target_num_archives ∧
      (∀ kv ∈ buildOutputConfig args, kv.1 ∈ outputConfigKeys) := by
  intro args input_paths nowMs
  obtain ⟨p, il, ppr, t1, t2, t3, t4, t5⟩ := args
  refine ⟨rfl, rfl, rfl, rfl, rfl, rfl, rfl, rfl, rfl, ?_, ?_, ?_, ?_, ?_, ?_⟩
  · cases t1 <;> cases t2 <;> cases t3 <;> cases t4 <;> cases t5 <;> rfl
  · cases t1 <;> cases t2 <;> cases t3 <;> cases t4 <;> cases t5 <;> rfl
  · cases t1 <;> cases t2 <;> cases t3 <;> cases t4 <;> cases t5 <;> rfl
  · cases t1 <;> cases t2 <;> cases t3 <;> cases t4 <;> cases t5 <;> rfl
  · cases t1 <;> cases t2 <;> cases t3 <;> cases t4 <;> cases t5 <;> rfl
  · intro kv hkv
    simp only [buildOutputConfig, List.mem_filterMap, List.mem_cons,
      List.not_mem_nil, or_false] at hkv
    obtain ⟨q, hq, hmap⟩ := hkv
    rcases Option.map_eq_some'.mp hmap with ⟨v, hv, heq⟩
    rcases hq with rfl | rfl | rfl | rfl | rfl <;>
      (rw [← heq]; simp [outputConfigKeys])

/-- Witness for C7 on a sample argument set with one supplied parameter. -/
theorem submission_single_pending_entry_witness :
    (makeEntry sampleArgs ["/a", "/b"] 1234).status = "pending" ∧
    ("target_archive_size", (100 : Int)).1 ∈ outputConfigKeys := by
  have h := submission_single_pending_entry sampleArgs ["/a", "/b"] 1234
  exact ⟨h.2.2.1,
    h.2.2.2.2.2.2.2.2.2.2.2.2.2.2 ("target_archive_size", 100) (by decide)⟩

end ClpCompress
